import Mathlib

/-!
Verification of the HSA GPU intrinsic lowering rules in
`numba/hsa/hsaimpl.py`.

The Python module registers lowering rules for GPU intrinsics
(`get_global_id`, atomic add, shared-memory allocation).  We embed the
module shallowly: LLVM module mutation and instruction emission become
explicit state passing over a `CGState`; Python exceptions become an
`Except PyError` result that carries the (possibly mutated) state along,
matching Python semantics where a raised exception does not roll back
mutations already made to the module object.
-/

/-- Numba scalar types relevant to these lowering rules.  Stands in for
the host compiler's `numba.types` scalar type objects; equality of
constructors models equality of numba type objects. -/
inductive NBType where
  | boolean
  | int8 | int16 | int32 | int64
  | uint8 | uint16 | uint32 | uint64
  | intp | uintp
  | float32 | float64
  | complex64 | complex128
  deriving DecidableEq, Repr

/-- Display name of a numba type, as used in error message formatting
(`"%s" % dtype`). -/
def NBType.str : NBType → String
  | .boolean => "bool"
  | .int8 => "int8"
  | .int16 => "int16"
  | .int32 => "int32"
  | .int64 => "int64"
  | .uint8 => "uint8"
  | .uint16 => "uint16"
  | .uint32 => "uint32"
  | .uint64 => "uint64"
  | .intp => "intp"
  | .uintp => "uintp"
  | .float32 => "float32"
  | .float64 => "float64"
  | .complex64 => "complex64"
  | .complex128 => "complex128"

/-- Modelled from the spec: the set of numeric types
(`numba.types.number_domain`, integer, real and complex domains; the
`numba.types` module is not under src/).  Booleans are not numbers. -/
def number_domain : List NBType :=
  [.int8, .int16, .int32, .int64, .uint8, .uint16, .uint32, .uint64,
   .intp, .uintp, .float32, .float64, .complex64, .complex128]

/-- Modelled from the spec: Itanium C++ ABI mangling letter for a numba
scalar type (`numba.itanium_mangler.mangle_type` is not under src/). -/
def mangle_type : NBType → String
  | .boolean => "b"
  | .int8 => "a"
  | .int16 => "s"
  | .int32 => "i"
  | .int64 => "l"
  | .uint8 => "h"
  | .uint16 => "t"
  | .uint32 => "j"
  | .uint64 => "m"
  | .intp => "l"
  | .uintp => "m"
  | .float32 => "f"
  | .float64 => "d"
  | .complex64 => "9complex64"
  | .complex128 => "10complex128"

/-- Modelled from the spec: Itanium C++ ABI mangling code for a C type
name (`numba.itanium_mangler` is not under src/); `unsigned int` mangles
to `j`. -/
def mangle_type_c : String → String
  | "int" => "i"
  | "unsigned int" => "j"
  | "long" => "l"
  | "unsigned long" => "m"
  | s => "u" ++ toString s.length ++ s

/-- Modelled from the spec: Itanium C mangling of a function symbol
(`numba.itanium_mangler.mangle_c` is not under src/): `_Z`, the decimal
length of the identifier, the identifier, then the argument type codes. -/
def mangle_c (name : String) (cargs : List String) : String :=
  "_Z" ++ toString name.length ++ name ++ String.join (cargs.map mangle_type_c)

/-- `_atomic_mangle` from `hsaimpl.py`: hand-rolled Itanium mangling of
an OpenCL atomic builtin with a volatile pointer argument in a numbered
address space. -/
def atomic_mangle (op : String) (ty : NBType) (addrspace : Nat) : String :=
  let tyletter := mangle_type ty
  let as_str := "AS" ++ toString addrspace
  let tyaddrstr := "U" ++ toString as_str.length ++ as_str
  "_Z" ++ toString (7 + op.length) ++ "atomic_" ++ op ++ "PV" ++ tyaddrstr
    ++ tyletter ++ tyletter

/-- Claim C2: the atomic mangling function returns `_Z`, the decimal
number `7 + len op`, `atomic_` ++ op, `PV`, `U` ++ the length of
`AS<a>` ++ `AS<a>`, then the type letter twice; and the decimal length
prefix `7 + len op` equals the length of the mangled identifier
`atomic_` ++ op, as the Itanium ABI requires. -/
theorem atomic_mangle_spec (op : String) (ty : NBType) (a : Nat) :
    atomic_mangle op ty a =
      "_Z" ++ toString (7 + op.length) ++ ("atomic_" ++ op) ++ "PV"
        ++ ("U" ++ toString ("AS" ++ toString a).length ++ ("AS" ++ toString a))
        ++ mangle_type ty ++ mangle_type ty
    ∧ 7 + op.length = ("atomic_" ++ op).length := by
  constructor
  · simp [atomic_mangle, String.append_assoc]
  · simp
    decide

/-! ## Codegen state: LLVM module and instruction stream -/

/-- An LLVM function declaration as visible to this fragment: its symbol
name and calling convention. -/
structure FuncDecl where
  name : String
  cc : String
  deriving DecidableEq, Repr

/-- An LLVM global variable as mutated by `_generic_array`: its symbol
name, address space, and the linkage / null-initializer settings applied
after creation. -/
structure GlobalVar where
  name : String
  addrspace : Nat
  linkage : Option String
  initializedNull : Bool
  deriving DecidableEq, Repr

/-- The LLVM module: declared functions and global variables. -/
structure LLModule where
  functions : List FuncDecl
  globals : List GlobalVar
  deriving DecidableEq, Repr

/-- An SSA value: a function argument, the result of the n-th emitted
instruction, a reference to a global, an integer constant, or the array
structure value assembled by `_make_array` (its data pointer, and the
shape / strides constants packed into it). -/
inductive Value where
  | arg (n : Nat)
  | instr (n : Nat)
  | global (name : String)
  | constInt (ty : NBType) (val : Int)
  | array (data : Value) (shape : List Int) (strides : List Int)
  deriving DecidableEq, Repr

/-- An emitted LLVM instruction, as produced through the host builder. -/
inductive Op where
  | call (callee : String) (args : List Value)
  | cast (v : Value) (fromty toty : NBType)
  | extract (v : Value) (idx : Nat)
  | getitemptr (ary : Value) (indices : List Value)
  | bitcast (v : Value)
  | addrspacecast (v : Value) (toAS : Nat)
  deriving DecidableEq, Repr

/-- Whether an instruction is a function call. -/
def Op.isCall : Op → Bool
  | .call _ _ => true
  | _ => false

/-- The codegen state threaded through a lowering rule: the LLVM module
and the instruction stream of the builder. -/
structure CGState where
  module : LLModule
  instrs : List Op
  deriving DecidableEq, Repr

/-- Emit one instruction; its result is `Value.instr` at the position it
takes in the stream. -/
def emit (op : Op) (s : CGState) : Value × CGState :=
  (Value.instr s.instrs.length, { s with instrs := s.instrs ++ [op] })

/-- Python exceptions raised by the lowering rules. -/
inductive PyError where
  | typeError (msg : String)
  | valueError (msg : String)
  | notImplementedError (msg : String)
  deriving DecidableEq, Repr

/-- Look a function up by symbol name (first declaration wins, as in an
LLVM module's symbol table). -/
def LLModule.findFn (m : LLModule) (name : String) : Option FuncDecl :=
  m.functions.find? (fun f => f.name == name)

/-- `Module.get_or_insert_function`: reuse an existing declaration with
that symbol name, otherwise append a fresh one with the default C
calling convention. -/
def LLModule.get_or_insert_function (m : LLModule) (name : String) : LLModule :=
  if m.functions.any (fun f => f.name == name) then m
  else { m with functions := m.functions ++ [{ name := name, cc := "ccc" }] }

/-- `fn.calling_convention = cc`: mutate the declaration(s) with this
symbol name. -/
def LLModule.setCallingConvention (m : LLModule) (name cc : String) : LLModule :=
  { m with functions :=
      m.functions.map (fun f => if f.name == name then { f with cc := cc } else f) }

/-- Modelled from the spec: the SPIR function calling convention
(`numba.hsa.target.CC_SPIR_FUNC`; the target module is not under src/). -/
def CC_SPIR_FUNC : String := "spir_func"

/-- Modelled from the spec: the SPIR local (shared) address space number
(`numba.hsa.target.SPIR_LOCAL_ADDRSPACE`; not under src/). -/
def SPIR_LOCAL_ADDRSPACE : Nat := 3

/-- Modelled from the spec: the SPIR generic address space number
(`numba.hsa.target.SPIR_GENERIC_ADDRSPACE`; not under src/). -/
def SPIR_GENERIC_ADDRSPACE : Nat := 4

/-- `_declare_function` from `hsaimpl.py`: mangle the symbol with the
Itanium C mangler, get-or-insert the declaration into the module, and
set its calling convention to SPIR_FUNC.  Returns the mangled symbol as
the handle to the declared function. -/
def declare_function (name : String) (cargs : List String) (s : CGState) :
    String × CGState :=
  let mangled := mangle_c name cargs
  let m := s.module.get_or_insert_function mangled
  let m := m.setCallingConvention mangled CC_SPIR_FUNC
  (mangled, { s with module := m })

/-- `get_global_id_impl` from `hsaimpl.py`: declare the OpenCL builtin
`get_global_id(unsigned int)`, call it on the dimension argument, and
return the result cast from `uintp` to `intp` (`context.cast` is host
compiler code, modelled as a cast instruction). -/
def get_global_id_impl (dim : Value) (s : CGState) : Value × CGState :=
  let (fname, s1) := declare_function "get_global_id" ["unsigned int"] s
  let (res, s2) := emit (Op.call fname [dim]) s1
  emit (Op.cast res NBType.uintp NBType.intp) s2

/-! ## Claim C1: the global-id lowering -/

/-- After get-or-insert, some declaration with the requested symbol name
is in the module. -/
lemma get_or_insert_has (m : LLModule) (name : String) :
    ∃ f ∈ (m.get_or_insert_function name).functions, f.name = name := by
  unfold LLModule.get_or_insert_function
  by_cases h : m.functions.any (fun f => f.name == name)
  · rcases List.any_eq_true.mp h with ⟨f, hf, hname⟩
    exact ⟨f, by simp [h, hf], by simpa using hname⟩
  · exact ⟨⟨name, "ccc"⟩, by simp [h], rfl⟩

/-- Setting the calling convention of a symbol that is present makes the
lookup of that symbol return it with the new calling convention. -/
lemma findFn_setcc (l : List FuncDecl) (name cc : String)
    (h : ∃ f ∈ l, f.name = name) :
    (l.map (fun f => if f.name == name then { f with cc := cc } else f)).find?
      (fun f => f.name == name) = some ⟨name, cc⟩ := by
  induction l with
  | nil => simp at h
  | cons f rest ih =>
    obtain ⟨fn, fc⟩ := f
    simp only [List.map_cons]
    by_cases hf : fn = name
    · rw [List.find?_cons_of_pos]
      · simp [hf]
      · simp [hf]
    · have h' : ∃ g ∈ rest, g.name = name := by
        rcases h with ⟨g, hg, hname⟩
        rcases List.mem_cons.mp hg with hg | hg
        · subst hg; exact absurd hname hf
        · exact ⟨g, hg, hname⟩
      rw [List.find?_cons_of_neg]
      · exact ih h'
      · simp [hf]

/-- `_declare_function` leaves the declared symbol in the module with
the SPIR_FUNC calling convention. -/
lemma declare_function_findFn (name : String) (cargs : List String) (s : CGState) :
    (declare_function name cargs s).2.module.findFn (mangle_c name cargs)
      = some ⟨mangle_c name cargs, CC_SPIR_FUNC⟩ := by
  unfold declare_function LLModule.findFn LLModule.setCallingConvention
  exact findFn_setcc _ _ _ (get_or_insert_has s.module _)

/-- Claim C1: lowering the global-id intrinsic for a uint32 dimension
argument emits exactly one call, to the function whose symbol is the
Itanium C mangling of `get_global_id` with C argument `unsigned int`
(concretely `_Z13get_global_idj`), which is declared in the module with
the SPIR_FUNC calling convention; the value returned is the result of
the cast, from the unsigned to the signed pointer-sized integer type, of
the call's result. -/
theorem get_global_id_lowering (dim : Value) (s : CGState) :
    (get_global_id_impl dim s).2.instrs.drop s.instrs.length
      = [Op.call (mangle_c "get_global_id" ["unsigned int"]) [dim],
         Op.cast (Value.instr s.instrs.length) NBType.uintp NBType.intp]
    ∧ ((get_global_id_impl dim s).2.instrs.drop s.instrs.length).countP Op.isCall = 1
    ∧ (get_global_id_impl dim s).2.module.findFn (mangle_c "get_global_id" ["unsigned int"])
        = some ⟨mangle_c "get_global_id" ["unsigned int"], CC_SPIR_FUNC⟩
    ∧ (get_global_id_impl dim s).1 = Value.instr (s.instrs.length + 1)
    ∧ mangle_c "get_global_id" ["unsigned int"] = "_Z13get_global_idj" := by
  have hinstr : (get_global_id_impl dim s).2.instrs
      = s.instrs ++ [Op.call (mangle_c "get_global_id" ["unsigned int"]) [dim],
                     Op.cast (Value.instr s.instrs.length) NBType.uintp NBType.intp] := by
    simp [get_global_id_impl, declare_function, emit]
  have hdrop : (get_global_id_impl dim s).2.instrs.drop s.instrs.length
      = [Op.call (mangle_c "get_global_id" ["unsigned int"]) [dim],
         Op.cast (Value.instr s.instrs.length) NBType.uintp NBType.intp] := by
    rw [hinstr, List.drop_left]
  refine ⟨hdrop, ?_, ?_, ?_, by decide⟩
  · rw [hdrop]; rfl
  · have := declare_function_findFn "get_global_id" ["unsigned int"] s
    simpa [get_global_id_impl, emit] using this
  · simp [get_global_id_impl, declare_function, emit]

/-! ## The atomic-add lowering (claims C3 and C4) -/

/-- A numba array type as seen by the lowering rule: element dtype and
number of dimensions. -/
structure ArrayType where
  dtype : NBType
  ndim : Nat
  deriving DecidableEq, Repr

/-- The index argument's numba type: `intp` (a single integer index), a
`UniTuple` (homogeneous tuple of a given length), or a `Tuple`. -/
inductive IndexType where
  | intp
  | uniTuple (ty : NBType) (count : Nat)
  | tuple (tys : List NBType)
  deriving DecidableEq, Repr

/-- `len(indty)` after the single-integer normalisation `indty = [indty]`
performed by the lowering rule: a single integer counts as one
component; a tuple contributes its number of elements. -/
def IndexType.len : IndexType → Nat
  | .intp => 1
  | .uniTuple _ n => n
  | .tuple ts => ts.length

/-- The element types obtained by iterating the tuple type, as
`zip(indty, indices)` does. -/
def IndexType.tys : IndexType → List NBType
  | .intp => [.intp]
  | .uniTuple t n => List.replicate n t
  | .tuple ts => ts

/-- `cgutils.unpack_tuple` (host compiler code): emit one extraction per
tuple element and return the extracted values. -/
def unpack_tuple (v : Value) (count : Nat) (s : CGState) :
    List Value × CGState :=
  ((List.range count).map (fun i => Value.instr (s.instrs.length + i)),
   { s with instrs := s.instrs ++ (List.range count).map (fun i => Op.extract v i) })

/-- The `context.cast` loop over the zipped (type, index) pairs: each
index component is cast to `intp`. -/
def cast_indices : List (NBType × Value) → CGState → List Value × CGState
  | [], s => ([], s)
  | (t, i) :: rest, s =>
    let e := emit (Op.cast i t NBType.intp) s
    let r := cast_indices rest e.2
    (e.1 :: r.1, r.2)

/-- `_declare_atomic` from `hsaimpl.py`: get-or-insert the declaration
under the hand-rolled atomic mangling and set its calling convention to
SPIR_FUNC. -/
def declare_atomic (op : String) (ptrAddrspace : Nat) (ty : NBType) (s : CGState) :
    String × CGState :=
  let sym := atomic_mangle op ty ptrAddrspace
  let m := (s.module.get_or_insert_function sym).setCallingConvention sym CC_SPIR_FUNC
  (sym, { s with module := m })

/-- `hsail_atomic_add_tuple` from `hsaimpl.py`: normalise the index
argument (a single `intp` index becomes a one-element list, a tuple is
unpacked and each component cast to `intp`), then check that the value
type matches the array's dtype and that the number of index components
matches the array's dimensionality, raising `TypeError` otherwise;
finally compute the element pointer and call the declared atomic-add
builtin on it.  The element pointer is into plain (unqualified, number
0) address space, as numba array data pointers carry no address-space
qualifier. -/
def hsail_atomic_add_tuple (aryty : ArrayType) (indty : IndexType) (valty : NBType)
    (ary inds val : Value) (s : CGState) : Except PyError Value × CGState :=
  let dtype := aryty.dtype
  let norm :=
    match indty with
    | .intp => ([inds], s)
    | _ =>
      let up := unpack_tuple inds indty.len s
      cast_indices (indty.tys.zip up.1) up.2
  let indices := norm.1
  let s1 := norm.2
  if dtype ≠ valty then
    (.error (.typeError ("expecting " ++ dtype.str ++ " but got " ++ valty.str)), s1)
  else if aryty.ndim ≠ indty.len then
    (.error (.typeError ("indexing " ++ toString aryty.ndim ++ "-D array with "
        ++ toString indty.len ++ "-D index")), s1)
  else
    let e1 := emit (Op.getitemptr ary indices) s1
    let da := declare_atomic "add" 0 valty e1.2
    let e2 := emit (Op.call da.1 [e1.1, val]) da.2
    (.ok e2.1, e2.2)

/-- `cast_indices` only appends cast instructions: no call is among
them, and the module is untouched. -/
lemma cast_indices_state (ps : List (NBType × Value)) (s : CGState) :
    ∃ l, (cast_indices ps s).2 = { s with instrs := s.instrs ++ l }
      ∧ l.countP Op.isCall = 0 := by
  induction ps generalizing s with
  | nil => exact ⟨[], by simp [cast_indices], rfl⟩
  | cons p rest ih =>
    obtain ⟨t, i⟩ := p
    obtain ⟨l, hl, hc⟩ := ih { s with instrs := s.instrs ++ [Op.cast i t NBType.intp] }
    refine ⟨Op.cast i t NBType.intp :: l, ?_, ?_⟩
    · simp only [cast_indices, emit]
      rw [hl]
      simp
    · simp [List.countP_cons, hc, Op.isCall]

/-- The index-normalisation stage of the atomic-add lowering (both the
single-integer and the tuple branch) only appends extraction and cast
instructions: no call is among them, and the module is untouched. -/
lemma normalize_state (indty : IndexType) (inds : Value) (s : CGState) :
    ∃ l, (match indty with
          | IndexType.intp => ([inds], s)
          | _ =>
            let up := unpack_tuple inds indty.len s
            cast_indices (indty.tys.zip up.1) up.2).2
        = { s with instrs := s.instrs ++ l }
      ∧ l.countP Op.isCall = 0 := by
  cases indty with
  | intp => exact ⟨[], by simp, rfl⟩
  | uniTuple t n =>
    obtain ⟨l, hl, hc⟩ := cast_indices_state
      ((IndexType.uniTuple t n).tys.zip (unpack_tuple inds (IndexType.uniTuple t n).len s).1)
      (unpack_tuple inds (IndexType.uniTuple t n).len s).2
    refine ⟨(List.range n).map (fun i => Op.extract inds i) ++ l, ?_, ?_⟩
    · simp only []
      rw [hl]
      simp [unpack_tuple, IndexType.len]
    · rw [List.countP_append, hc]
      simp [List.countP_eq_zero, Op.isCall]
  | tuple tys =>
    obtain ⟨l, hl, hc⟩ := cast_indices_state
      ((IndexType.tuple tys).tys.zip (unpack_tuple inds (IndexType.tuple tys).len s).1)
      (unpack_tuple inds (IndexType.tuple tys).len s).2
    refine ⟨(List.range tys.length).map (fun i => Op.extract inds i) ++ l, ?_, ?_⟩
    · simp only []
      rw [hl]
      simp [unpack_tuple, IndexType.len]
    · rw [List.countP_append, hc]
      simp [List.countP_eq_zero, Op.isCall]

/-- Claim C3: when the array's element dtype differs from the value
argument's type, the atomic-add lowering raises a `TypeError`
(mismatched dtype) and no call instruction — in particular no atomic
call — is among the instructions it emitted. -/
theorem atomic_add_dtype_mismatch (aryty : ArrayType) (indty : IndexType)
    (valty : NBType) (ary inds val : Value) (s : CGState)
    (h : aryty.dtype ≠ valty) :
    (hsail_atomic_add_tuple aryty indty valty ary inds val s).1
      = .error (.typeError ("expecting " ++ aryty.dtype.str ++ " but got " ++ valty.str))
    ∧ ((hsail_atomic_add_tuple aryty indty valty ary inds val s).2.instrs.drop
        s.instrs.length).countP Op.isCall = 0 := by
  obtain ⟨l, hl, hc⟩ := normalize_state indty inds s
  constructor
  · simp [hsail_atomic_add_tuple, h]
  · simp only [hsail_atomic_add_tuple]
    rw [if_pos h]
    rw [hl]
    simpa [List.drop_left] using hc

/-- Witness for claim C3: adding a `float64` value into an `int32` array
raises the mismatched-dtype `TypeError` and emits no call. -/
theorem atomic_add_dtype_mismatch_witness :
    (ArrayType.mk NBType.int32 1).dtype ≠ NBType.float64 ∧
    ((hsail_atomic_add_tuple ⟨NBType.int32, 1⟩ IndexType.intp NBType.float64
        (Value.arg 0) (Value.arg 1) (Value.arg 2) ⟨⟨[], []⟩, []⟩).1
      = .error (.typeError ("expecting " ++ NBType.str NBType.int32 ++ " but got "
          ++ NBType.str NBType.float64))
    ∧ (((hsail_atomic_add_tuple ⟨NBType.int32, 1⟩ IndexType.intp NBType.float64
        (Value.arg 0) (Value.arg 1) (Value.arg 2) ⟨⟨[], []⟩, []⟩).2.instrs.drop
        ([] : List Op).length).countP Op.isCall = 0)) :=
  ⟨by decide,
   atomic_add_dtype_mismatch ⟨NBType.int32, 1⟩ IndexType.intp NBType.float64
     (Value.arg 0) (Value.arg 1) (Value.arg 2) ⟨⟨[], []⟩, []⟩ (by decide)⟩

/-- Claim C4: when the number of index components differs from the
array's number of dimensions, the atomic-add lowering raises an error
that aborts the pass; when the dtype check passes it is precisely the
wrong-index-dimensionality `TypeError`; and a single integer index
counts as one component. -/
theorem atomic_add_ndim_mismatch (aryty : ArrayType) (indty : IndexType)
    (valty : NBType) (ary inds val : Value) (s : CGState)
    (h : aryty.ndim ≠ indty.len) :
    (∃ e, (hsail_atomic_add_tuple aryty indty valty ary inds val s).1 = Except.error e)
    ∧ (aryty.dtype = valty →
        (hsail_atomic_add_tuple aryty indty valty ary inds val s).1
          = .error (.typeError ("indexing " ++ toString aryty.ndim ++ "-D array with "
              ++ toString indty.len ++ "-D index")))
    ∧ IndexType.len IndexType.intp = 1 := by
  refine ⟨?_, ?_, rfl⟩
  · by_cases hd : aryty.dtype = valty
    · exact ⟨.typeError ("indexing " ++ toString aryty.ndim ++ "-D array with "
          ++ toString indty.len ++ "-D index"), by simp [hsail_atomic_add_tuple, hd, h]⟩
    · exact ⟨.typeError ("expecting " ++ aryty.dtype.str ++ " but got " ++ valty.str),
        by simp [hsail_atomic_add_tuple, hd]⟩
  · intro hd
    simp [hsail_atomic_add_tuple, hd, h]

/-- Witness for claim C4: indexing a 2-D `int32` array with a single
integer index raises the wrong-dimensionality `TypeError`. -/
theorem atomic_add_ndim_mismatch_witness :
    (ArrayType.mk NBType.int32 2).ndim ≠ IndexType.len IndexType.intp ∧
    ((∃ e, (hsail_atomic_add_tuple ⟨NBType.int32, 2⟩ IndexType.intp NBType.int32
        (Value.arg 0) (Value.arg 1) (Value.arg 2) ⟨⟨[], []⟩, []⟩).1 = Except.error e)
    ∧ ((ArrayType.mk NBType.int32 2).dtype = NBType.int32 →
        (hsail_atomic_add_tuple ⟨NBType.int32, 2⟩ IndexType.intp NBType.int32
          (Value.arg 0) (Value.arg 1) (Value.arg 2) ⟨⟨[], []⟩, []⟩).1
        = .error (.typeError ("indexing " ++ toString (ArrayType.mk NBType.int32 2).ndim
            ++ "-D array with " ++ toString (IndexType.len IndexType.intp) ++ "-D index")))
    ∧ IndexType.len IndexType.intp = 1) :=
  ⟨by decide,
   atomic_add_ndim_mismatch ⟨NBType.int32, 2⟩ IndexType.intp NBType.int32
     (Value.arg 0) (Value.arg 1) (Value.arg 2) ⟨⟨[], []⟩, []⟩ (by decide)⟩

/-! ## The shared-memory allocation lowering (claims C5 to C10) -/

/-- Python's `reduce(operator.mul, shape)` with no initial value: on an
empty sequence it raises `TypeError`, otherwise it folds multiplication
from the first element. -/
def pyReduceMul : List Int → Except PyError Int
  | [] => .error (.typeError "reduce() of empty sequence with no initial value")
  | x :: xs => .ok (xs.foldl (· * ·) x)

/-- Folding multiplication from an initial value is that value times the
product of the list. -/
lemma foldl_mul_eq_mul_prod (a : Int) (l : List Int) :
    l.foldl (· * ·) a = a * l.prod := by
  induction l generalizing a with
  | nil => simp
  | cons b t ih => simp [List.foldl_cons, ih (a * b), List.prod_cons, mul_assoc]

/-- `lmod.add_global_variable(laryty, symbol_name, addrspace)`: append a
fresh global (no linkage, no initializer yet) to the module. -/
def LLModule.add_global_variable (m : LLModule) (name : String) (addrspace : Nat) :
    LLModule :=
  { m with globals := m.globals
      ++ [{ name := name, addrspace := addrspace, linkage := none,
            initializedNull := false }] }

/-- `gvmem.linkage = lc.LINKAGE_INTERNAL`: mutate the global's linkage. -/
def LLModule.setLinkageInternal (m : LLModule) (name : String) : LLModule :=
  { m with globals :=
      m.globals.map (fun g =>
        if g.name == name then { g with linkage := some "internal" } else g) }

/-- `gvmem.initializer = lc.Constant.null(laryty)`: mutate the global's
initializer to the zero value of its type. -/
def LLModule.setInitializerNull (m : LLModule) (name : String) : LLModule :=
  { m with globals :=
      m.globals.map (fun g =>
        if g.name == name then { g with initializedNull := true } else g) }

/-- Modelled from the spec: the ABI item size in bytes of each numba
scalar type, as `lldtype.get_abi_size(targetdata)` computes it from the
HSA data layout (`numba.hsa.hlc` is not under src/). -/
def abi_itemsize : NBType → Int
  | .boolean => 1
  | .int8 => 1
  | .int16 => 2
  | .int32 => 4
  | .int64 => 8
  | .uint8 => 1
  | .uint16 => 2
  | .uint32 => 4
  | .uint64 => 8
  | .intp => 8
  | .uintp => 8
  | .float32 => 4
  | .float64 => 8
  | .complex64 => 8
  | .complex128 => 16

/-- The loop body of `_make_array`: starting from the last stride
computed so far, walk `reversed(shape[1:])` and append
`lastsize * rstrides[-1]` for each entry. -/
def rstridesAux : Int → List Int → List Int
  | _, [] => []
  | last, sz :: rest => sz * last :: rstridesAux (sz * last) rest

/-- The strides computed by `_make_array`: `rstrides` starts as
`[itemsize]`, grows along `reversed(shape[1:])`, and is reversed at the
end. -/
def compute_strides (itemsize : Int) (shape : List Int) : List Int :=
  (itemsize :: rstridesAux itemsize ((shape.drop 1).reverse)).reverse

/-- `_make_array` from `hsaimpl.py`: build the numba array structure for
a C-contiguous array over the given data pointer — bitcast the data
pointer to the array's data field type, compute C strides from the ABI
item size, and pack the shape and strides constants into the structure. -/
def make_array (dataptr : Value) (dtype : NBType) (shape : List Int) (s : CGState) :
    Except PyError Value × CGState :=
  let itemsize := abi_itemsize dtype
  let strides := compute_strides itemsize shape
  let e := emit (Op.bitcast dataptr) s
  (.ok (Value.array e.1 shape strides), e.2)

/-- `_generic_array` from `hsaimpl.py`: reduce the shape to the element
count, and in the SPIR local address space add the backing global
variable to the module, then raise `ValueError` on a non-positive
element count, otherwise set internal linkage and a null initializer,
then raise `TypeError` for a non-numeric dtype, otherwise cast the
global to the generic address space and build the array structure.  Any
other address space raises `NotImplementedError`. -/
def generic_array (shape : List Int) (dtype : NBType) (symbol_name : String)
    (addrspace : Nat) (s : CGState) : Except PyError Value × CGState :=
  match pyReduceMul shape with
  | .error e => (.error e, s)
  | .ok elemcount =>
    if addrspace = SPIR_LOCAL_ADDRSPACE then
      let s1 : CGState :=
        { s with module := s.module.add_global_variable symbol_name addrspace }
      if elemcount ≤ 0 then
        (.error (.valueError "array length <= 0"), s1)
      else
        let s2 : CGState :=
          { s1 with module :=
              (s1.module.setLinkageInternal symbol_name).setInitializerNull symbol_name }
        if dtype ∉ number_domain then
          (.error (.typeError ("unsupported type: " ++ dtype.str)), s2)
        else
          let e := emit (Op.addrspacecast (Value.global symbol_name)
            SPIR_GENERIC_ADDRSPACE) s2
          make_array e.1 dtype shape e.2
    else
      (.error (.notImplementedError ("addrspace " ++ toString addrspace)), s)

/-- `hsail_smem_alloc_array` from `hsaimpl.py`: the public shared-memory
allocation intrinsic lowers through `_generic_array` with the fixed
symbol `_hsapy_smem` and the SPIR local address space. -/
def hsail_smem_alloc_array (shape : List Int) (dtype : NBType) (s : CGState) :
    Except PyError Value × CGState :=
  generic_array shape dtype "_hsapy_smem" SPIR_LOCAL_ADDRSPACE s

/-- Reduction of a non-empty shape succeeds and yields its product. -/
lemma pyReduceMul_cons (x : Int) (rest : List Int) :
    pyReduceMul (x :: rest) = .ok ((x :: rest).prod) := by
  simp [pyReduceMul, foldl_mul_eq_mul_prod]

/-- Claim C5: lowering the shared-memory allocation intrinsic with a
shape whose product of element counts is non-positive raises the
`ValueError` "array length <= 0". -/
theorem smem_alloc_nonpositive (x : Int) (rest : List Int) (dtype : NBType)
    (s : CGState) (h : (x :: rest).prod ≤ 0) :
    (hsail_smem_alloc_array (x :: rest) dtype s).1
      = .error (.valueError "array length <= 0") := by
  have h' : x * rest.prod ≤ 0 := by simpa using h
  simp [hsail_smem_alloc_array, generic_array, pyReduceMul_cons, h']

/-- Witness for claim C5: allocating with shape `(0,)` raises the
non-positive-size `ValueError`. -/
theorem smem_alloc_nonpositive_witness :
    ((0 : Int) :: []).prod ≤ 0 ∧
    (hsail_smem_alloc_array ((0 : Int) :: []) NBType.int32 ⟨⟨[], []⟩, []⟩).1
      = .error (.valueError "array length <= 0") :=
  ⟨by decide,
   smem_alloc_nonpositive 0 [] NBType.int32 ⟨⟨[], []⟩, []⟩ (by decide)⟩

/-- Claim C6: lowering the shared-memory allocation intrinsic with a
non-numeric element dtype raises an error that aborts the pass; when the
shape is non-empty with positive element count, it is precisely the
unsupported-element-type `TypeError`. -/
theorem smem_alloc_bad_dtype (shape : List Int) (dtype : NBType) (s : CGState)
    (h : dtype ∉ number_domain) :
    (∃ e, (hsail_smem_alloc_array shape dtype s).1 = Except.error e)
    ∧ (∀ x rest, shape = x :: rest → 0 < (x :: rest).prod →
        (hsail_smem_alloc_array shape dtype s).1
          = .error (.typeError ("unsupported type: " ++ dtype.str))) := by
  constructor
  · cases shape with
    | nil =>
      exact ⟨.typeError "reduce() of empty sequence with no initial value",
        by simp [hsail_smem_alloc_array, generic_array, pyReduceMul]⟩
    | cons x rest =>
      by_cases hp : x * rest.prod ≤ 0
      · exact ⟨.valueError "array length <= 0",
          by simp [hsail_smem_alloc_array, generic_array, pyReduceMul_cons, hp]⟩
      · exact ⟨.typeError ("unsupported type: " ++ dtype.str),
          by simp [hsail_smem_alloc_array, generic_array, pyReduceMul_cons, hp, h]⟩
  · rintro x rest rfl hp
    have hp' : ¬ (x * rest.prod ≤ 0) := by simpa using not_le.mpr hp
    simp [hsail_smem_alloc_array, generic_array, pyReduceMul_cons, hp', h]

/-- Witness for claim C6: allocating a `bool` array of shape `(5,)`
raises the unsupported-type `TypeError`. -/
theorem smem_alloc_bad_dtype_witness :
    NBType.boolean ∉ number_domain ∧
    ((∃ e, (hsail_smem_alloc_array ((5 : Int) :: []) NBType.boolean ⟨⟨[], []⟩, []⟩).1
        = Except.error e)
    ∧ (∀ x rest, (5 : Int) :: [] = x :: rest → 0 < (x :: rest).prod →
        (hsail_smem_alloc_array ((5 : Int) :: []) NBType.boolean ⟨⟨[], []⟩, []⟩).1
          = .error (.typeError ("unsupported type: " ++ NBType.str NBType.boolean)))) :=
  ⟨by decide,
   smem_alloc_bad_dtype ((5 : Int) :: []) NBType.boolean ⟨⟨[], []⟩, []⟩ (by decide)⟩

/-- Claim C7: the generic array allocator raises `NotImplementedError`
for any address space other than the SPIR local one, leaving the state
untouched (so before any array object is constructed); the public
shared-memory intrinsic always passes the SPIR local address space, and
it can never surface the `NotImplementedError`. -/
theorem generic_array_bad_addrspace :
    (∀ (x : Int) (rest : List Int) (dtype : NBType) (sym : String) (a : Nat)
        (s : CGState), a ≠ SPIR_LOCAL_ADDRSPACE →
        generic_array (x :: rest) dtype sym a s
          = (.error (.notImplementedError ("addrspace " ++ toString a)), s))
    ∧ (∀ (shape : List Int) (dtype : NBType) (s : CGState),
        hsail_smem_alloc_array shape dtype s
          = generic_array shape dtype "_hsapy_smem" SPIR_LOCAL_ADDRSPACE s)
    ∧ (∀ (shape : List Int) (dtype : NBType) (s : CGState) (msg : String),
        (hsail_smem_alloc_array shape dtype s).1
          ≠ .error (.notImplementedError msg)) := by
  refine ⟨?_, fun _ _ _ => rfl, ?_⟩
  · intro x rest dtype sym a s ha
    simp [generic_array, pyReduceMul_cons, ha]
  · intro shape dtype s msg
    cases shape with
    | nil => simp [hsail_smem_alloc_array, generic_array, pyReduceMul]
    | cons x rest =>
      by_cases hp : x * rest.prod ≤ 0
      · simp [hsail_smem_alloc_array, generic_array, pyReduceMul_cons, hp]
      · by_cases hd : dtype ∈ number_domain
        · simp [hsail_smem_alloc_array, generic_array, pyReduceMul_cons, hp, hd,
            make_array, emit]
        · simp [hsail_smem_alloc_array, generic_array, pyReduceMul_cons, hp, hd]

/-- Witness for claim C7: calling the generic allocator with address
space 0 raises `NotImplementedError` and leaves the state unchanged. -/
theorem generic_array_bad_addrspace_witness :
    generic_array ((2 : Int) :: []) NBType.int32 "_hsapy_smem" 0 ⟨⟨[], []⟩, []⟩
      = (.error (.notImplementedError ("addrspace " ++ toString (0 : Nat))),
         ⟨⟨[], []⟩, []⟩) :=
  generic_array_bad_addrspace.1 2 [] NBType.int32 "_hsapy_smem" 0 ⟨⟨[], []⟩, []⟩
    (by decide)

/-- Claim C9: when the shared-memory allocation raises the
non-positive-size or unsupported-type error, the backing global variable
has already been added to the module: the returned (mutated) module
contains a global named `_hsapy_smem`. -/
theorem smem_alloc_mutates_on_error (x : Int) (rest : List Int) (dtype : NBType)
    (s : CGState) (h : (x :: rest).prod ≤ 0 ∨ dtype ∉ number_domain) :
    (∃ e, (hsail_smem_alloc_array (x :: rest) dtype s).1 = Except.error e)
    ∧ ∃ g ∈ (hsail_smem_alloc_array (x :: rest) dtype s).2.module.globals,
        g.name = "_hsapy_smem" := by
  by_cases hp : x * rest.prod ≤ 0
  · constructor
    · exact ⟨.valueError "array length <= 0",
        by simp [hsail_smem_alloc_array, generic_array, pyReduceMul_cons, hp]⟩
    · refine ⟨⟨"_hsapy_smem", SPIR_LOCAL_ADDRSPACE, none, false⟩, ?_, rfl⟩
      simp [hsail_smem_alloc_array, generic_array, pyReduceMul_cons, hp,
        LLModule.add_global_variable]
  · have hp0 : ¬ ((x :: rest).prod ≤ 0) := by simpa using hp
    have hd : dtype ∉ number_domain := h.resolve_left hp0
    constructor
    · exact ⟨.typeError ("unsupported type: " ++ dtype.str),
        by simp [hsail_smem_alloc_array, generic_array, pyReduceMul_cons, hp, hd]⟩
    · refine ⟨⟨"_hsapy_smem", SPIR_LOCAL_ADDRSPACE, some "internal", true⟩, ?_, rfl⟩
      simp [hsail_smem_alloc_array, generic_array, pyReduceMul_cons, hp, hd,
        LLModule.add_global_variable, LLModule.setLinkageInternal,
        LLModule.setInitializerNull]

/-- Witness for claim C9: allocating with shape `(0,)` fails with the
size error, yet the module already holds the `_hsapy_smem` global. -/
theorem smem_alloc_mutates_on_error_witness :
    (((0 : Int) :: []).prod ≤ 0 ∨ NBType.int32 ∉ number_domain) ∧
    ((∃ e, (hsail_smem_alloc_array ((0 : Int) :: []) NBType.int32 ⟨⟨[], []⟩, []⟩).1
        = Except.error e)
    ∧ ∃ g ∈ (hsail_smem_alloc_array ((0 : Int) :: []) NBType.int32
        ⟨⟨[], []⟩, []⟩).2.module.globals, g.name = "_hsapy_smem") :=
  ⟨Or.inl (by decide),
   smem_alloc_mutates_on_error 0 [] NBType.int32 ⟨⟨[], []⟩, []⟩ (Or.inl (by decide))⟩

/-- Claim C10: for the empty shape tuple, the generic array allocator
fails in the shape reduction itself (Python's `reduce` with no initial
value raises `TypeError` on an empty sequence) before the
non-positive-size check is reached — the state is returned untouched and
the error raised is not the documented non-positive-size `ValueError`. -/
theorem smem_alloc_empty_shape (dtype : NBType) (sym : String) (a : Nat)
    (s : CGState) :
    generic_array [] dtype sym a s
      = (.error (.typeError "reduce() of empty sequence with no initial value"), s)
    ∧ hsail_smem_alloc_array [] dtype s
      = (.error (.typeError "reduce() of empty sequence with no initial value"), s)
    ∧ (PyError.typeError "reduce() of empty sequence with no initial value"
        ≠ PyError.valueError "array length <= 0") := by
  exact ⟨rfl, rfl, by simp⟩

/-! ## Claim C8: C-contiguous strides -/

/-- Growing the walked part of the reversed shape by one entry appends
one stride: the new entry times the running product so far. -/
lemma rstridesAux_append (l : List Int) (b x : Int) :
    rstridesAux x (l ++ [b]) = rstridesAux x l ++ [b * (l.prod * x)] := by
  induction l generalizing x with
  | nil => simp [rstridesAux]
  | cons c t ih =>
    have hlast : b * (t.prod * (c * x)) = b * (c * t.prod * x) := by ring
    simp [rstridesAux, ih (c * x), List.prod_cons, hlast]

/-- Peeling the leading dimension off a shape of rank at least two
prepends the stride `itemsize *` (product of the remaining shape). -/
lemma compute_strides_cons (i a b : Int) (rest : List Int) :
    compute_strides i (a :: b :: rest)
      = i * (b :: rest).prod :: compute_strides i (b :: rest) := by
  unfold compute_strides
  simp only [List.drop_succ_cons, List.drop_zero, List.reverse_cons]
  rw [rstridesAux_append]
  rw [List.reverse_append]
  simp [List.prod_reverse, List.prod_cons]
  ring

/-- The C-contiguous strides of the claim: entry `k` is the item size
times the product of the shape entries after position `k`. -/
def c_contiguous_strides (itemsize : Int) (shape : List Int) : List Int :=
  (List.range shape.length).map (fun k => itemsize * ((shape.drop (k + 1)).prod))

/-- On non-empty shapes, the stride loop of `_make_array` computes
exactly the C-contiguous strides. -/
lemma compute_strides_eq (i : Int) (shape : List Int) (h : shape ≠ []) :
    compute_strides i shape = c_contiguous_strides i shape := by
  induction shape with
  | nil => cases h rfl
  | cons a rest ih =>
    cases rest with
    | nil => simp [compute_strides, rstridesAux, c_contiguous_strides]
    | cons b rest' =>
      rw [compute_strides_cons, ih (by simp)]
      simp only [c_contiguous_strides, List.length_cons]
      rw [List.range_succ_eq_map (rest'.length + 1)]
      simp [List.map_map, Function.comp, List.drop_succ_cons, List.prod_cons]

/-- Claim C8: whenever the shared-memory allocation produces an array
value, that value carries the requested shape, and its strides are
C-contiguous: entry `k` is the element's ABI item size times the product
of the shape entries after position `k`. -/
theorem smem_alloc_strides (shape : List Int) (dtype : NBType) (s : CGState)
    (v : Value)
    (h : (hsail_smem_alloc_array shape dtype s).1 = Except.ok v) :
    ∃ d, v = Value.array d shape
      (c_contiguous_strides (abi_itemsize dtype) shape) := by
  cases shape with
  | nil =>
    exfalso
    simp [hsail_smem_alloc_array, generic_array, pyReduceMul] at h
  | cons x rest =>
    by_cases hp : x * rest.prod ≤ 0
    · exfalso
      simp [hsail_smem_alloc_array, generic_array, pyReduceMul_cons, hp] at h
    · by_cases hd : dtype ∈ number_domain
      · refine ⟨Value.instr (s.instrs.length + 1), ?_⟩
        simp [hsail_smem_alloc_array, generic_array, pyReduceMul_cons, hp, hd,
          make_array, emit] at h
        rw [← compute_strides_eq (abi_itemsize dtype) (x :: rest) (by simp)]
        exact h.symm
      · exfalso
        simp [hsail_smem_alloc_array, generic_array, pyReduceMul_cons, hp, hd] at h

/-- Witness for claim C8: a `(2, 3)` `int32` allocation yields strides
`(12, 4)` — the C-contiguous strides for a 4-byte element. -/
theorem smem_alloc_strides_witness :
    ((hsail_smem_alloc_array ((2 : Int) :: 3 :: []) NBType.int32 ⟨⟨[], []⟩, []⟩).1
        = Except.ok (Value.array (Value.instr 1) ((2 : Int) :: 3 :: [])
            ((12 : Int) :: 4 :: [])))
    ∧ ∃ d, Value.array (Value.instr 1) ((2 : Int) :: 3 :: []) ((12 : Int) :: 4 :: [])
        = Value.array d ((2 : Int) :: 3 :: [])
            (c_contiguous_strides (abi_itemsize NBType.int32) ((2 : Int) :: 3 :: [])) :=
  ⟨rfl,
   smem_alloc_strides ((2 : Int) :: 3 :: []) NBType.int32 ⟨⟨[], []⟩, []⟩
     (Value.array (Value.instr 1) ((2 : Int) :: 3 :: []) ((12 : Int) :: 4 :: [])) rfl⟩
